import Mathlib

/-!
Verification of the novel-scraper chapter pipeline.

This file gives a shallow embedding of the HenryRocha/novel-scraper
repository (package novelscraper): the scraper constructors with their
URL and chapter-bound validation, the NovelFull page-range resolver,
the chapter-list filter, the chapter content extractor with its
fallback strategy, the thread-pool result collection, and the
EPUB assembler sort.  Python exceptions are modelled with an Except
monad; exception message texts are elided (no claim depends on them).
Theorems then settle the specification claims about these components.
-/

/-- Exceptions raised by the scraper code: ScraperError (raised
explicitly by the code) and AttributeError (raised by Python when a
BeautifulSoup find returns None and an attribute is accessed on it). -/
inductive PyExc where
  | scraperError
  | attributeError
  deriving DecidableEq

/-- Boolean test that the first character list is a prefix of the second. -/
def listStartsWith : List Char → List Char → Bool
  | [], _ => true
  | _ :: _, [] => false
  | a :: as, b :: bs => a == b && listStartsWith as bs

/-- Python substring containment (the in operator) over character lists:
the needle occurs contiguously somewhere in the haystack. -/
def pyInChars (needle : List Char) : List Char → Bool
  | [] => needle.isEmpty
  | c :: cs => listStartsWith needle (c :: cs) || pyInChars needle cs

/-- Python substring containment for strings: needle in hay. -/
def pyIn (needle hay : String) : Bool :=
  pyInChars needle.toList hay.toList

/-- State stored by a scraper constructor after successful validation:
the fields self.url, self.start_chapter, self.end_chapter. -/
structure ScraperState where
  url : String
  start_chapter : Int
  end_chapter : Int
  deriving DecidableEq

/-- Fixed domain of the NovelFull adapter. -/
def novelFullDomain : String := "https://novelfull.com"

/-- Fixed domain of the WuxiaWorld adapter. -/
def wuxiaWorldDomain : String := "https://www.wuxiaworld.com"

/-- Embedding of NovelFull.__init__ (novelfull.py lines 24 to 40):
raise ScraperError when the domain is not a substring of the URL, when
start_chapter is below 1, or when end_chapter is below 1; otherwise
store the fields.  No check compares end_chapter with start_chapter. -/
def NovelFull_init (url : String) (start_chapter end_chapter : Int) :
    Except PyExc ScraperState :=
  if !(pyIn novelFullDomain url) then .error .scraperError
  else if start_chapter < 1 then .error .scraperError
  else if end_chapter < 1 then .error .scraperError
  else .ok { url := url, start_chapter := start_chapter, end_chapter := end_chapter }

/-- Embedding of WuxiaWorld.__init__ (wuxiaworld.py lines 25 to 43):
identical validation structure with the WuxiaWorld domain. -/
def WuxiaWorld_init (url : String) (start_chapter end_chapter : Int) :
    Except PyExc ScraperState :=
  if !(pyIn wuxiaWorldDomain url) then .error .scraperError
  else if start_chapter < 1 then .error .scraperError
  else if end_chapter < 1 then .error .scraperError
  else .ok { url := url, start_chapter := start_chapter, end_chapter := end_chapter }

/-- Observation that an Except value is a success. -/
def exceptOk {ε α : Type} : Except ε α → Bool
  | .ok _ => true
  | .error _ => false

theorem listStartsWith_iff (n h : List Char) :
    listStartsWith n h = true ↔ ∃ rest, h = n ++ rest := by
  induction n generalizing h with
  | nil => simp [listStartsWith]
  | cons a as ih =>
    cases h with
    | nil => simp [listStartsWith]
    | cons b bs =>
      simp only [listStartsWith, Bool.and_eq_true, beq_iff_eq, ih,
        List.cons_append, List.cons.injEq]
      constructor
      · rintro ⟨rfl, rest, rfl⟩
        exact ⟨rest, rfl, rfl⟩
      · rintro ⟨rest, rfl, rfl⟩
        exact ⟨rfl, rest, rfl⟩

theorem pyInChars_iff (n h : List Char) :
    pyInChars n h = true ↔ ∃ pre post, h = pre ++ n ++ post := by
  induction h with
  | nil =>
    simp only [pyInChars, List.isEmpty_iff]
    constructor
    · intro hn
      exact ⟨[], [], by simp [hn]⟩
    · rintro ⟨pre, post, heq⟩
      have h0 : pre ++ n ++ post = [] := heq.symm
      simp only [List.append_assoc, List.append_eq_nil] at h0
      exact h0.2.1
  | cons c cs ih =>
    simp only [pyInChars, Bool.or_eq_true, listStartsWith_iff, ih]
    constructor
    · rintro (⟨rest, hr⟩ | ⟨pre, post, rfl⟩)
      · exact ⟨[], rest, by simp [hr]⟩
      · exact ⟨c :: pre, post, rfl⟩
    · rintro ⟨pre, post, heq⟩
      cases pre with
      | nil =>
        left
        exact ⟨post, by simpa using heq⟩
      | cons p ps =>
        right
        simp only [List.cons_append, List.cons.injEq, List.append_assoc] at heq
        obtain ⟨rfl, rfl⟩ := heq
        exact ⟨ps, post, by simp⟩

/-- C9: URL validation in both scraper constructors accepts a URL exactly
when the adapter domain occurs as a contiguous substring anywhere in it
(given positive chapter bounds); substring containment is characterised
as a decomposition hay = pre ++ needle ++ post; and a URL with a foreign
host that merely embeds the domain in a query parameter passes NovelFull
validation. -/
theorem c9_url_validation_is_substring_containment :
    (∀ url : String, ∀ s e : Int, 1 ≤ s → 1 ≤ e →
      exceptOk (NovelFull_init url s e) = pyIn novelFullDomain url ∧
      exceptOk (WuxiaWorld_init url s e) = pyIn wuxiaWorldDomain url) ∧
    (∀ needle hay : String, pyIn needle hay = true ↔
      ∃ pre post, hay.toList = pre ++ needle.toList ++ post) ∧
    exceptOk (NovelFull_init "https://evil.example/p?next=https://novelfull.com" 1 1) = true := by
  refine ⟨?_, ?_, ?_⟩
  · intro url s e hs he
    constructor
    · unfold NovelFull_init
      cases hd : pyIn novelFullDomain url <;>
        simp [hd, exceptOk, not_lt.mpr hs, not_lt.mpr he]
    · unfold WuxiaWorld_init
      cases hd : pyIn wuxiaWorldDomain url <;>
        simp [hd, exceptOk, not_lt.mpr hs, not_lt.mpr he]
  · intro needle hay
    exact pyInChars_iff needle.toList hay.toList
  · rfl

/-- C9 witness: the validation equivalence evaluated at a concrete URL
and bounds. -/
theorem c9_witness :
    exceptOk (NovelFull_init "https://novelfull.com/most-popular" 1 1) =
      pyIn novelFullDomain "https://novelfull.com/most-popular" :=
  (c9_url_validation_is_substring_containment.1
    "https://novelfull.com/most-popular" 1 1 (by decide) (by decide)).1

/-- C5: evidence of a code bug: both constructors accept bounds with
end_chapter strictly below start_chapter (here start 5, end 2), because
the third validation branch only checks end_chapter below 1 even though
its own error message demands end greater or equal to start; the claim
(and the spec) say such input must raise a validation error before any
network activity. -/
theorem c5_end_before_start_accepted :
    NovelFull_init "https://novelfull.com/novel/x" 5 2 =
      .ok { url := "https://novelfull.com/novel/x", start_chapter := 5, end_chapter := 2 } ∧
    WuxiaWorld_init "https://www.wuxiaworld.com/novel/x" 5 2 =
      .ok { url := "https://www.wuxiaworld.com/novel/x", start_chapter := 5, end_chapter := 2 } := by
  exact ⟨rfl, rfl⟩

/-- Python list(range(a, b)) over integers: the integers from a up to
but excluding b, empty when b is at most a. -/
def intRange (a b : Int) : List Int :=
  (List.range (b - a).toNat).map (fun (i : Nat) => a + (i : Int))

/-- Embedding of NovelFull.calculate_pages_to_scrape (novelfull.py
lines 42 to 59).  Python floor division and modulo are Int.fdiv and
Int.fmod; the final statement is list(range(start_page + 1,
end_page + 1 + 1)). -/
def calculate_pages_to_scrape (start_chapter end_chapter : Int) : List Int :=
  let start_chapter_rest : Int := Int.fmod start_chapter 50
  let end_chapter_rest : Int := Int.fmod end_chapter 50
  let start_page : Int := Int.fdiv start_chapter 50
  let end_page : Int := Int.fdiv end_chapter 50
  let start_page := if start_chapter_rest = 0 then start_page - 1 else start_page
  let end_page := if end_chapter_rest = 0 then end_page - 1 else end_page
  intRange (start_page + 1) (end_page + 1 + 1)

/-- Definition written from the words of the spec (section 4.2), for
comparison with the code: page(n) = floor((n - 1) / pageSize) + 1 with
pageSize 50. -/
def pageOf (n : Int) : Int :=
  Int.fdiv (n - 1) 50 + 1

theorem mem_intRange (a b p : Int) : p ∈ intRange a b ↔ a ≤ p ∧ p < b := by
  simp only [intRange, List.mem_map, List.mem_range]
  constructor
  · rintro ⟨i, hi, rfl⟩
    omega
  · intro hp
    exact ⟨(p - a).toNat, by omega, by omega⟩

theorem pageOf_eq_ediv (n : Int) : pageOf n = (n - 1) / 50 + 1 := by
  unfold pageOf
  rw [Int.fdiv_eq_ediv _ (by decide)]

/-- C2: for all bounds with 1 <= start <= end, the resolver returns
exactly the inclusive page interval from page(start) to page(end),
where page(n) = floor((n - 1) / 50) + 1 as the spec states; moreover
page(50) = 1 and page(51) = 2, so a chapter exactly at a page boundary
resolves to the page that starts with it. -/
theorem c2_pages_to_scrape_is_page_interval (s e : Int) (_hs : 1 ≤ s) (_hse : s ≤ e) :
    calculate_pages_to_scrape s e = intRange (pageOf s) (pageOf e + 1) ∧
    (∀ p : Int, p ∈ calculate_pages_to_scrape s e ↔ pageOf s ≤ p ∧ p ≤ pageOf e) ∧
    pageOf 50 = 1 ∧ pageOf 51 = 2 := by
  have hstart :
      (if Int.fmod s 50 = 0 then Int.fdiv s 50 - 1 else Int.fdiv s 50) + 1 = pageOf s := by
    rw [Int.fmod_eq_emod _ (by decide), Int.fdiv_eq_ediv _ (by decide), pageOf_eq_ediv]
    split <;> omega
  have hend :
      (if Int.fmod e 50 = 0 then Int.fdiv e 50 - 1 else Int.fdiv e 50) + 1 = pageOf e := by
    rw [Int.fmod_eq_emod _ (by decide), Int.fdiv_eq_ediv _ (by decide), pageOf_eq_ediv]
    split <;> omega
  have hlist : calculate_pages_to_scrape s e = intRange (pageOf s) (pageOf e + 1) := by
    unfold calculate_pages_to_scrape
    rw [← hstart, ← hend]
  refine ⟨hlist, ?_, by decide, by decide⟩
  intro p
  rw [hlist, mem_intRange]
  omega

/-- C2 witness: the resolver evaluated on the concrete range 1 to 120,
which spans pages 1 to 3. -/
theorem c2_witness :
    calculate_pages_to_scrape 1 120 = intRange (pageOf 1) (pageOf 120 + 1) ∧
    (∀ p : Int, p ∈ calculate_pages_to_scrape 1 120 ↔ pageOf 1 ≤ p ∧ p ≤ pageOf 120) ∧
    pageOf 50 = 1 ∧ pageOf 51 = 2 :=
  c2_pages_to_scrape_is_page_interval 1 120 (by decide) (by decide)

/-- Chapter link tag found on a listing page: an anchor with an href
and a title attribute. -/
structure ChapterTag where
  href : String
  title : String
  deriving DecidableEq

/-- Parsed chapter document, abstracted to exactly what the extractor
reads: containerParas holds the strings str(p) of the p tags with text
inside the div with id chapter-content (none when that div is absent,
in which case Python raises AttributeError on the find_all call), and
allParas holds the same for the whole document. -/
structure ChapterDoc where
  containerParas : Option (List String)
  allParas : List String
  deriving DecidableEq

/-- Result dictionary built by scrape_chapter_page, together with the
success flag of the ChapterResult record in the data model of the
spec: success is false exactly on the return path that substitutes the
failure placeholder body. -/
structure ChapterResult where
  chapter_url : String
  chapter_number : Int
  chapter_title : String
  chapter_content : String
  success : Bool
  deriving DecidableEq

/-- Placeholder body returned on extraction failure (novelfull.py
lines 200 to 206). -/
def failMsg : String :=
  "Novel-Scraper failed to scrape the contents of this chapter."

/-- Numeric value of a run of decimal digit characters. -/
def digitsToNat (ds : List Char) : Nat :=
  ds.foldl (fun acc c => acc * 10 + (c.toNat - 48)) 0

/-- First maximal digit run in a character list, if any. -/
def firstNumAux : List Char → Option Nat
  | [] => none
  | c :: cs =>
    if c.isDigit then some (digitsToNat (c :: cs.takeWhile Char.isDigit))
    else firstNumAux cs

/-- Embedding of int(findall(digit-run-regex, title)[0]) guarded by the
emptiness test the code performs: the first maximal run of digits in
the title, as a number, or none when the title has no digit. -/
def firstNumber (s : String) : Option Nat :=
  firstNumAux s.toList

/-- Network oracle: for each URL, the HTTP status code of the response
and the parsed chapter document of its body. -/
def Net : Type := String → Nat × ChapterDoc

/-- Embedding of BaseScraper.get_page_content (basescraper.py lines 29
to 44): return the body when the status is 200, raise ScraperError
otherwise. -/
def get_page_content (net : Net) (url : String) : Except PyExc ChapterDoc :=
  let request := net url
  if request.1 = 200 then .ok request.2
  else .error .scraperError

/-- Chapter number parsed from a title: the first number in it, or the
sentinel -1 when the title has no digits (novelfull.py lines 157 to 162
and 178 to 181 of the chapter scraper). -/
def pyChapterNumber (title : String) : Int :=
  match firstNumber title with
  | some n => (n : Int)
  | none => -1

/-- Embedding of NovelFull.scrape_chapter_page (novelfull.py lines 150
to 215): parse the chapter number from the title (sentinel -1 when the
title has no digits), fetch the chapter page, read the paragraphs of
the chapter-content container, fall back to the paragraphs of the
whole document when the container yields at most one paragraph, and
when the fallback also yields at most one paragraph return the result
with the placeholder body instead of raising. -/
def scrape_chapter_page (net : Net) (chapter : ChapterTag) : Except PyExc ChapterResult :=
  let chapter_url := chapter.href
  let chapter_title := chapter.title
  let chapter_number : Int := pyChapterNumber chapter_title
  match get_page_content net (novelFullDomain ++ chapter_url) with
  | .error e => .error e
  | .ok chapter_soup =>
    match chapter_soup.containerParas with
    | none => .error .attributeError
    | some chapter_text_list =>
      if chapter_text_list.length ≤ 1 then
        if chapter_soup.allParas.length > 1 then
          .ok { chapter_url := chapter_url, chapter_number := chapter_number,
                chapter_title := chapter_title,
                chapter_content := String.intercalate "\n" chapter_soup.allParas,
                success := true }
        else
          .ok { chapter_url := chapter_url, chapter_number := chapter_number,
                chapter_title := chapter_title,
                chapter_content := failMsg,
                success := false }
      else
        .ok { chapter_url := chapter_url, chapter_number := chapter_number,
              chapter_title := chapter_title,
              chapter_content := String.intercalate "\n" chapter_text_list,
              success := true }


/-- C3: on a fetched chapter document whose primary container yields at
most one paragraph, the extractor uses the paragraphs of the whole
document when there are more than one of those, and otherwise returns
(rather than raises) a result with success false and the fixed failure
message as its body. -/
theorem c3_extraction_fallback (net : Net) (chapter : ChapterTag)
    (doc : ChapterDoc) (primary : List String)
    (hnet : net (novelFullDomain ++ chapter.href) = (200, doc))
    (hcont : doc.containerParas = some primary)
    (hprim : primary.length ≤ 1) :
    (1 < doc.allParas.length →
      scrape_chapter_page net chapter =
        .ok { chapter_url := chapter.href,
              chapter_number := pyChapterNumber chapter.title,
              chapter_title := chapter.title,
              chapter_content := String.intercalate "\n" doc.allParas,
              success := true }) ∧
    (doc.allParas.length ≤ 1 →
      scrape_chapter_page net chapter =
        .ok { chapter_url := chapter.href,
              chapter_number := pyChapterNumber chapter.title,
              chapter_title := chapter.title,
              chapter_content := failMsg,
              success := false }) := by
  constructor
  · intro hfb
    simp [scrape_chapter_page, get_page_content, hnet, hcont, hprim, hfb]
  · intro hfb
    have hnotfb : ¬ doc.allParas.length > 1 := by omega
    simp [scrape_chapter_page, get_page_content, hnet, hcont, hprim, hnotfb]

/-- Concrete chapter document whose container holds one paragraph and
whose whole document holds the same single paragraph. -/
def docNoContent : ChapterDoc :=
  { containerParas := some ["<p>ad</p>"], allParas := ["<p>ad</p>"] }

/-- Network that serves docNoContent with status 200 on every URL. -/
def netNoContent : Net := fun _ => (200, docNoContent)

/-- C3 witness: the soft-failure branch of the extractor evaluated on a
concrete document with no usable paragraphs anywhere. -/
theorem c3_witness :
    scrape_chapter_page netNoContent { href := "/c1", title := "Chapter 1" } =
      .ok { chapter_url := "/c1",
            chapter_number := pyChapterNumber "Chapter 1",
            chapter_title := "Chapter 1",
            chapter_content := failMsg,
            success := false } :=
  (c3_extraction_fallback netNoContent { href := "/c1", title := "Chapter 1" }
    docNoContent ["<p>ad</p>"] rfl rfl (by decide)).2 (by decide)

/-- Predicate under which NovelFull.filter_chapter_list keeps a
chapter tag: a parsable first number inside the inclusive range, or no
parsable number at all. -/
def keepChapter (start_chapter end_chapter : Int) (chapter : ChapterTag) : Bool :=
  match firstNumber chapter.title with
  | some n => decide (start_chapter ≤ (n : Int) ∧ (n : Int) ≤ end_chapter)
  | none => true

/-- Embedding of NovelFull.filter_chapter_list (novelfull.py lines 132
to 148): walk the chapter list, keeping a chapter when its title has a
parsable number lying in the inclusive requested range, and always
keeping chapters whose title has no parsable number. -/
def filter_chapter_list (start_chapter end_chapter : Int) :
    List ChapterTag → List ChapterTag
  | [] => []
  | chapter :: rest =>
    match firstNumber chapter.title with
    | some n =>
      if start_chapter ≤ (n : Int) ∧ (n : Int) ≤ end_chapter then
        chapter :: filter_chapter_list start_chapter end_chapter rest
      else
        filter_chapter_list start_chapter end_chapter rest
    | none => chapter :: filter_chapter_list start_chapter end_chapter rest

theorem filter_chapter_list_eq_filter (s e : Int) (l : List ChapterTag) :
    filter_chapter_list s e l = l.filter (keepChapter s e) := by
  induction l with
  | nil => rfl
  | cons chapter rest ih =>
    simp only [filter_chapter_list]
    split
    next n hn =>
      by_cases hin : s ≤ (n : Int) ∧ (n : Int) ≤ e
      · simp [hin, ih, List.filter_cons, keepChapter, hn]
      · simp [hin, ih, List.filter_cons, keepChapter, hn]
    next hn =>
      simp [ih, List.filter_cons, keepChapter, hn]

/-- C6: for every chapter-listing item in the input, the filter keeps
it when its title has no parsable number; when the title has a first
parsable number, the item is kept when that number lies in the
inclusive requested range and excluded from the output when it lies
outside. -/
theorem c6_filter_retains_unnumbered_and_bounds_numbered
    (s e : Int) (chapters : List ChapterTag) (c : ChapterTag) (hc : c ∈ chapters) :
    (firstNumber c.title = none → c ∈ filter_chapter_list s e chapters) ∧
    (∀ n : Nat, firstNumber c.title = some n →
      ((s ≤ (n : Int) ∧ (n : Int) ≤ e) → c ∈ filter_chapter_list s e chapters) ∧
      (¬ (s ≤ (n : Int) ∧ (n : Int) ≤ e) → c ∉ filter_chapter_list s e chapters)) := by
  rw [filter_chapter_list_eq_filter]
  refine ⟨?_, ?_⟩
  · intro hnone
    rw [List.mem_filter]
    exact ⟨hc, by simp [keepChapter, hnone]⟩
  · intro n hn
    refine ⟨?_, ?_⟩
    · intro hin
      rw [List.mem_filter]
      exact ⟨hc, by simp [keepChapter, hn, hin]⟩
    · intro hout hmem
      rw [List.mem_filter] at hmem
      have hk := hmem.2
      simp only [keepChapter, hn, decide_eq_true_eq] at hk
      exact hout hk

/-- Concrete listing used by the filter witness: two numbered chapters
and one unnumbered special. -/
def demoTags : List ChapterTag :=
  [ { href := "/a", title := "Chapter 1: Dawn" },
    { href := "/b", title := "Side Story" },
    { href := "/c", title := "Chapter 9: Dusk" } ]

/-- C6 witness: on the concrete listing with range 1 to 3, the
unnumbered item is retained. -/
theorem c6_witness :
    { href := "/b", title := "Side Story" } ∈ filter_chapter_list 1 3 demoTags :=
  (c6_filter_retains_unnumbered_and_bounds_numbered 1 3 demoTags
    { href := "/b", title := "Side Story" } (by decide)).1 rfl

/-- Characterisation of one scrape_chapter_page run on a fetched
document whose container is present: the result is ok, with the branch
picked by the two paragraph-count tests. -/
theorem scrape_chapter_page_run (net : Net) (c : ChapterTag) (doc : ChapterDoc)
    (primary : List String)
    (hnet : net (novelFullDomain ++ c.href) = (200, doc))
    (hcont : doc.containerParas = some primary) :
    scrape_chapter_page net c = .ok (
      if primary.length ≤ 1 then
        if doc.allParas.length > 1 then
          { chapter_url := c.href, chapter_number := pyChapterNumber c.title,
            chapter_title := c.title,
            chapter_content := String.intercalate "\n" doc.allParas, success := true }
        else
          { chapter_url := c.href, chapter_number := pyChapterNumber c.title,
            chapter_title := c.title, chapter_content := failMsg, success := false }
      else
        { chapter_url := c.href, chapter_number := pyChapterNumber c.title,
          chapter_title := c.title,
          chapter_content := String.intercalate "\n" primary, success := true }) := by
  by_cases hprim : primary.length ≤ 1
  · by_cases hfb : doc.allParas.length > 1
    · simp [scrape_chapter_page, get_page_content, hnet, hcont, hprim, hfb]
    · simp [scrape_chapter_page, get_page_content, hnet, hcont, hprim, hfb]
  · simp [scrape_chapter_page, get_page_content, hnet, hcont, hprim]

/-- Embedding of result collection of list(executor.map(...))
(novelfull.py lines 123 to 130): the results generator is iterated in
task submission order; retrieving the result of a task that raised
re-raises its exception, so the first raising task in submission order
aborts the collection, and otherwise the results appear in submission
order. -/
def collectResults : List (Except PyExc ChapterResult) → Except PyExc (List ChapterResult)
  | [] => .ok []
  | .error e :: _ => .error e
  | .ok r :: rest =>
    match collectResults rest with
    | .error e => .error e
    | .ok rs => .ok (r :: rs)

/-- Embedding of the extraction pool of NovelFull.scrape_novel_page
(novelfull.py lines 123 to 130): one scrape_chapter_page task per
chapter tag of the filtered listing, results collected in submission
order. -/
def scrape_novel_page_pool (net : Net) (chapters : List ChapterTag) :
    Except PyExc (List ChapterResult) :=
  collectResults (chapters.map (scrape_chapter_page net))

/-- Test that a chapter document defeats both extraction scans: the
container paragraphs and the whole-document paragraphs both number at
most one. -/
def failsBothScans (doc : ChapterDoc) : Bool :=
  decide ((doc.containerParas.getD []).length ≤ 1) && decide (doc.allParas.length ≤ 1)

theorem scrape_chapter_page_ok_of (net : Net) (c : ChapterTag) (doc : ChapterDoc)
    (primary : List String)
    (hnet : net (novelFullDomain ++ c.href) = (200, doc))
    (hcont : doc.containerParas = some primary) :
    ∃ r, scrape_chapter_page net c = .ok r ∧
      r.success = !(failsBothScans doc) ∧
      (r.success = false → r.chapter_content = failMsg) := by
  rw [scrape_chapter_page_run net c doc primary hnet hcont]
  by_cases hprim : primary.length ≤ 1
  · by_cases hfb : doc.allParas.length > 1
    · have hf : failsBothScans doc = false := by
        simp only [failsBothScans, hcont, Option.getD_some]
        simp only [Bool.and_eq_false_iff, decide_eq_false_iff_not]
        right
        omega
      rw [if_pos hprim, if_pos hfb]
      exact ⟨_, rfl, by simp [hf], by intro h; simp at h⟩
    · have hf : failsBothScans doc = true := by
        simp only [failsBothScans, hcont, Option.getD_some]
        simp only [Bool.and_eq_true, decide_eq_true_eq]
        omega
      rw [if_pos hprim, if_neg hfb]
      exact ⟨_, rfl, by simp [hf], by intro h; rfl⟩
  · have hf : failsBothScans doc = false := by
      simp only [failsBothScans, hcont, Option.getD_some]
      simp only [Bool.and_eq_false_iff, decide_eq_false_iff_not]
      left
      omega
    rw [if_neg hprim]
    exact ⟨_, rfl, by simp [hf], by intro h; simp at h⟩

/-- C1 (amended): over fetch targets whose fetches all succeed and
whose documents all have the content container, no extraction failure
aborts a sibling task or escapes the pool boundary: the collection
yields exactly one result per target, the failed ones (those whose
document defeats both scans) carrying success false and the
placeholder body.  Fetch errors and missing content containers, by
contrast, escape the pool; the counterexample theorem exhibits both on
runs with two targets of which one fails. -/
theorem c1_amended_pool_absorbs_extraction_failures (net : Net) (chapters : List ChapterTag)
    (hok : ∀ c ∈ chapters, (net (novelFullDomain ++ c.href)).1 = 200 ∧
      (net (novelFullDomain ++ c.href)).2.containerParas ≠ none) :
    ∃ rs, scrape_novel_page_pool net chapters = .ok rs ∧
      rs.length = chapters.length ∧
      rs.countP (fun r => !r.success) =
        chapters.countP (fun c => failsBothScans (net (novelFullDomain ++ c.href)).2) ∧
      ∀ r ∈ rs, r.success = false → r.chapter_content = failMsg := by
  induction chapters with
  | nil => exact ⟨[], rfl, rfl, rfl, by simp⟩
  | cons c cs ih =>
    obtain ⟨hst, hcne⟩ := hok c (List.mem_cons_self c cs)
    obtain ⟨primary, hcont⟩ := Option.ne_none_iff_exists'.mp hcne
    have hnet : net (novelFullDomain ++ c.href) = (200, (net (novelFullDomain ++ c.href)).2) := by
      rw [← hst]
    obtain ⟨r, hr, hrs, hrf⟩ :=
      scrape_chapter_page_ok_of net c ((net (novelFullDomain ++ c.href)).2) primary hnet hcont
    obtain ⟨rs, hpool, hlen, hcount, hfail⟩ :=
      ih (fun x hx => hok x (List.mem_cons_of_mem c hx))
    have hpool2 : collectResults (cs.map (scrape_chapter_page net)) = .ok rs := hpool
    refine ⟨r :: rs, ?_, by simp [hlen], ?_, ?_⟩
    · simp only [scrape_novel_page_pool, List.map_cons, hr, collectResults, hpool2]
    · simp only [List.countP_cons, hcount, hrs, Bool.not_not]
    · intro x hx
      rcases List.mem_cons.mp hx with hx | hx
      · subst hx
        exact hrf
      · exact hfail x hx

/-- Concrete chapter document with two paragraphs in the container. -/
def docGood : ChapterDoc :=
  { containerParas := some ["<p>a</p>", "<p>b</p>"], allParas := ["<p>a</p>", "<p>b</p>"] }

/-- Concrete chapter document whose chapter-content container div is
absent; the whole document still has paragraphs. -/
def docNoContainer : ChapterDoc :=
  { containerParas := none, allParas := ["<p>a</p>", "<p>b</p>"] }

/-- Network on which the fetch of chapter 1 returns status 404 and
every other fetch succeeds with a good document. -/
def netOneFetchFails : Net :=
  fun url => if url = novelFullDomain ++ "/c1" then (404, docNoContent) else (200, docGood)

/-- Network on which every fetch succeeds with status 200, but the
document of chapter 2 lacks the chapter-content container div. -/
def netOneContainerMissing : Net :=
  fun url => if url = novelFullDomain ++ "/c2" then (200, docNoContainer) else (200, docGood)

/-- C1 counterexample: two runs of the pool over N = 2 fetch targets
of which exactly K = 1 fails (so 0 <= K < N, inside the domain of the
claim).  When the failing target fails by fetch error (status 404),
the collection evaluates to a raised ScraperError; when it fails
because its fetched document lacks the content container, the
collection evaluates to a raised AttributeError.  In both runs the
failure escapes the pool boundary and no list of two ChapterResult
entries is produced, contrary to the claim that every failure is
absorbed as a placeholder entry. -/
theorem c1_counterexample_failures_escape_pool :
    scrape_novel_page_pool netOneFetchFails
      [{ href := "/c1", title := "Chapter 1" }, { href := "/c2", title := "Chapter 2" }] =
      .error .scraperError ∧
    scrape_novel_page_pool netOneContainerMissing
      [{ href := "/c1", title := "Chapter 1" }, { href := "/c2", title := "Chapter 2" }] =
      .error .attributeError := by
  exact ⟨rfl, rfl⟩

/-- Network serving a good document for chapter 1 and an empty one for
every other URL, all with status 200. -/
def netMixed : Net :=
  fun url => if url = novelFullDomain ++ "/c1" then (200, docGood) else (200, docNoContent)

/-- Fetch targets used by the C1 witness. -/
def c1WitnessChapters : List ChapterTag :=
  [ { href := "/c1", title := "Chapter 1" }, { href := "/c2", title := "Chapter 2" } ]

/-- C1 witness: the amended pool theorem evaluated on two targets of
which the second fails extraction. -/
theorem c1_witness :
    ∃ rs, scrape_novel_page_pool netMixed c1WitnessChapters = .ok rs ∧
      rs.length = c1WitnessChapters.length ∧
      rs.countP (fun r => !r.success) =
        c1WitnessChapters.countP
          (fun c => failsBothScans (netMixed (novelFullDomain ++ c.href)).2) ∧
      ∀ r ∈ rs, r.success = false → r.chapter_content = failMsg :=
  c1_amended_pool_absorbs_extraction_failures netMixed c1WitnessChapters (by decide)

/-- Stable insertion used to model Python list.sort with the key
lambda chapter: chapter of chapter_number: the new element is placed
in front of the first existing element whose key is at least its own,
so elements that arrived earlier keep their place under key ties. -/
def insertChapter (c : ChapterResult) : List ChapterResult → List ChapterResult
  | [] => [c]
  | d :: ds =>
    if c.chapter_number ≤ d.chapter_number then c :: d :: ds
    else d :: insertChapter c ds

/-- Embedding of chapters_info.sort(key=lambda chapter:
chapter[chapter_number]) (basescraper.py line 60 and wuxiaworld.py
line 150): Python list.sort is the stable ascending sort by the key,
and stable insertion sort computes exactly that function, since any
two stable sorts with the same key agree pointwise. -/
def sortChapters : List ChapterResult → List ChapterResult
  | [] => []
  | c :: cs => insertChapter c (sortChapters cs)

/-- Observable outcome of create_epub: the state of the caller list
object when the method returns, and the ordered chapter sequence of
the book manifest handed to the package writer. -/
structure EpubOutcome where
  chaptersAfter : List ChapterResult
  manifestChapters : List ChapterResult
  deriving DecidableEq

/-- Embedding of BaseScraper.create_epub (basescraper.py lines 47 to
93) and the identical WuxiaWorld.create_epub (wuxiaworld.py lines 142
to 184): the call chapters_info.sort on the caller-supplied list
reorders that list object in place, and the loop then appends one
content document per chapter to the book in that sorted order; the
external package-writer collaborator is modelled only through the
ordered manifest sequence it receives. -/
def create_epub (chapters_info : List ChapterResult) : EpubOutcome :=
  let sorted := sortChapters chapters_info
  { chaptersAfter := sorted, manifestChapters := sorted }

theorem insertChapter_perm (c : ChapterResult) (l : List ChapterResult) :
    List.Perm (insertChapter c l) (c :: l) := by
  induction l with
  | nil => exact List.Perm.refl _
  | cons d ds ih =>
    by_cases h : c.chapter_number ≤ d.chapter_number
    · simp only [insertChapter, if_pos h]
      exact List.Perm.refl _
    · simp only [insertChapter, if_neg h]
      exact (ih.cons d).trans (List.Perm.swap c d ds)

theorem sortChapters_perm (l : List ChapterResult) :
    List.Perm (sortChapters l) l := by
  induction l with
  | nil => exact List.Perm.refl _
  | cons c cs ih =>
    exact (insertChapter_perm c (sortChapters cs)).trans (ih.cons c)

theorem insertChapter_pairwise (c : ChapterResult) (l : List ChapterResult)
    (hl : List.Pairwise (fun a b => a.chapter_number ≤ b.chapter_number) l) :
    List.Pairwise (fun a b => a.chapter_number ≤ b.chapter_number) (insertChapter c l) := by
  induction l with
  | nil => simp [insertChapter]
  | cons d ds ih =>
    rw [List.pairwise_cons] at hl
    obtain ⟨hd, hds⟩ := hl
    by_cases h : c.chapter_number ≤ d.chapter_number
    · simp only [insertChapter, if_pos h]
      rw [List.pairwise_cons]
      refine ⟨?_, List.pairwise_cons.mpr ⟨hd, hds⟩⟩
      intro x hx
      rcases List.mem_cons.mp hx with rfl | hx
      · exact h
      · exact le_trans h (hd x hx)
    · simp only [insertChapter, if_neg h]
      rw [List.pairwise_cons]
      refine ⟨?_, ih hds⟩
      intro x hx
      have hx2 : x ∈ c :: ds := (insertChapter_perm c ds).mem_iff.mp hx
      rcases List.mem_cons.mp hx2 with rfl | hx2
      · omega
      · exact hd x hx2

theorem sortChapters_pairwise (l : List ChapterResult) :
    List.Pairwise (fun a b => a.chapter_number ≤ b.chapter_number) (sortChapters l) := by
  induction l with
  | nil => simp [sortChapters]
  | cons c cs ih => exact insertChapter_pairwise c (sortChapters cs) ih

theorem insertChapter_filter_key (k : Int) (c : ChapterResult) (l : List ChapterResult) :
    (insertChapter c l).filter (fun x => x.chapter_number == k) =
      if c.chapter_number = k then
        c :: l.filter (fun x => x.chapter_number == k)
      else
        l.filter (fun x => x.chapter_number == k) := by
  induction l with
  | nil =>
    simp only [insertChapter, List.filter_cons, List.filter_nil]
    by_cases hk : c.chapter_number = k
    · simp [hk]
    · simp [hk]
  | cons d ds ih =>
    simp only [insertChapter]
    by_cases h : c.chapter_number ≤ d.chapter_number
    · rw [if_pos h]
      simp only [List.filter_cons]
      by_cases hk : c.chapter_number = k
      · simp [hk]
      · simp [hk]
    · rw [if_neg h]
      simp only [List.filter_cons, ih]
      by_cases hk : c.chapter_number = k
      · have hdk : ¬ d.chapter_number = k := by omega
        simp [hk, hdk]
      · by_cases hdk : d.chapter_number = k
        · simp [hk, hdk]
        · simp [hk, hdk]

theorem sortChapters_filter_key (k : Int) (l : List ChapterResult) :
    (sortChapters l).filter (fun x => x.chapter_number == k) =
      l.filter (fun x => x.chapter_number == k) := by
  induction l with
  | nil => rfl
  | cons c cs ih =>
    by_cases hk : c.chapter_number = k
    · simp [sortChapters, insertChapter_filter_key, hk, List.filter_cons, ih]
    · simp [sortChapters, insertChapter_filter_key, hk, List.filter_cons, ih]

theorem insertChapter_of_le (c : ChapterResult) (l : List ChapterResult)
    (h : ∀ d ∈ l, c.chapter_number ≤ d.chapter_number) :
    insertChapter c l = c :: l := by
  cases l with
  | nil => rfl
  | cons d ds =>
    simp only [insertChapter, if_pos (h d (List.mem_cons_self d ds))]

theorem sortChapters_of_sorted (l : List ChapterResult)
    (h : List.Pairwise (fun a b => a.chapter_number ≤ b.chapter_number) l) :
    sortChapters l = l := by
  induction l with
  | nil => rfl
  | cons c cs ih =>
    rw [List.pairwise_cons] at h
    obtain ⟨hc, hcs⟩ := h
    simp only [sortChapters, ih hcs]
    exact insertChapter_of_le c cs hc

/-- C4: for every list of chapter results, the assembler manifest is a
permutation of the input (no entry dropped, sentinels included),
sorted ascending by chapter number, and stable: for every key, the
subsequence of entries with that key equals the corresponding
subsequence of the input in its discovery order; moreover when every
entry has chapter number at least -1, as every entry built by the
scrapers does, the sentinel -1 entries all precede the others. -/
theorem c4_assembler_sort_stable_ascending (l : List ChapterResult) :
    List.Perm (create_epub l).manifestChapters l ∧
    List.Pairwise (fun a b => a.chapter_number ≤ b.chapter_number)
      (create_epub l).manifestChapters ∧
    (∀ k : Int,
      (create_epub l).manifestChapters.filter (fun c => c.chapter_number == k) =
        l.filter (fun c => c.chapter_number == k)) ∧
    ((∀ c ∈ l, -1 ≤ c.chapter_number) →
      List.Pairwise (fun a b => b.chapter_number = -1 → a.chapter_number = -1)
        (create_epub l).manifestChapters) := by
  refine ⟨sortChapters_perm l, sortChapters_pairwise l,
    fun k => sortChapters_filter_key k l, ?_⟩
  intro hge
  have hmem : ∀ c ∈ sortChapters l, -1 ≤ c.chapter_number := fun c hc =>
    hge c ((sortChapters_perm l).mem_iff.mp hc)
  refine (sortChapters_pairwise l).imp_of_mem ?_
  intro a b ha hb hr hbneg
  have hma := hmem a ha
  omega

/-- Concrete chapter results with a key tie and a sentinel, used by
the assembler witnesses. -/
def demoChapters : List ChapterResult :=
  [ { chapter_url := "/u1", chapter_number := 2, chapter_title := "Chapter 2",
      chapter_content := "x", success := true },
    { chapter_url := "/u2", chapter_number := -1, chapter_title := "Extra",
      chapter_content := "y", success := true },
    { chapter_url := "/u3", chapter_number := 2, chapter_title := "Chapter 2b",
      chapter_content := "z", success := true } ]

/-- C4 witness: the assembler sort properties evaluated on the
concrete list, with the sentinel-bound hypothesis discharged. -/
theorem c4_witness :
    List.Perm (create_epub demoChapters).manifestChapters demoChapters ∧
    List.Pairwise (fun a b => a.chapter_number ≤ b.chapter_number)
      (create_epub demoChapters).manifestChapters ∧
    (∀ k : Int,
      (create_epub demoChapters).manifestChapters.filter (fun c => c.chapter_number == k) =
        demoChapters.filter (fun c => c.chapter_number == k)) ∧
    List.Pairwise (fun a b => b.chapter_number = -1 → a.chapter_number = -1)
      (create_epub demoChapters).manifestChapters :=
  ⟨(c4_assembler_sort_stable_ascending demoChapters).1,
   (c4_assembler_sort_stable_ascending demoChapters).2.1,
   (c4_assembler_sort_stable_ascending demoChapters).2.2.1,
   (c4_assembler_sort_stable_ascending demoChapters).2.2.2 (by decide)⟩

/-- C8: applying the assembler sort to a chapter sequence that is
already sorted by its ordering (ascending chapter number, ties and
sentinels in place) returns the identical sequence. -/
theorem c8_sort_idempotent_on_sorted (l : List ChapterResult)
    (hsorted : List.Pairwise (fun a b => a.chapter_number ≤ b.chapter_number) l) :
    (create_epub l).manifestChapters = l :=
  sortChapters_of_sorted l hsorted

/-- Concrete already-sorted chapter sequence: sentinel first, then a
key tie in discovery order. -/
def demoSorted : List ChapterResult :=
  [ { chapter_url := "/s", chapter_number := -1, chapter_title := "Extra",
      chapter_content := "w", success := true },
    { chapter_url := "/u1", chapter_number := 2, chapter_title := "A",
      chapter_content := "x", success := true },
    { chapter_url := "/u3", chapter_number := 2, chapter_title := "B",
      chapter_content := "z", success := true } ]

/-- C8 witness: idempotence evaluated on the concrete sorted list. -/
theorem c8_witness : (create_epub demoSorted).manifestChapters = demoSorted :=
  c8_sort_idempotent_on_sorted demoSorted (by decide)

/-- C10: create_epub reorders the caller-supplied list in place: when
the method returns, the caller list holds the sorted sequence, a
permutation of what was passed in (its multiset of entries unchanged),
and on the concrete unsorted input the caller list is observably
different from what the caller passed, so the assembler did not leave
the argument untouched. -/
theorem c10_create_epub_sorts_caller_list_in_place :
    (∀ l : List ChapterResult,
      (create_epub l).chaptersAfter = sortChapters l ∧
      List.Perm (create_epub l).chaptersAfter l) ∧
    (create_epub demoChapters).chaptersAfter ≠ demoChapters := by
  refine ⟨fun l => ⟨rfl, sortChapters_perm l⟩, ?_⟩
  decide

/-- Run of the extraction pool result collection under an explicit
worker completion schedule.  Tasks are submitted in discovery order,
one per entry of results (entry i being what task i returns); the
schedule lists task indices in the order the workers happen to
complete them, and each completion writes its value into the slot of
its own discovery index, never into a slot keyed by completion
position.  This models the index-addressed result collection of
executor.map (novelfull.py lines 124 to 128 and wuxiaworld.py lines
193 to 197), whose futures list is laid out in submission order. -/
def runPoolSchedule (results : List ChapterResult) (schedule : List Nat) :
    List (Option ChapterResult) :=
  schedule.foldl (fun slots i => slots.set i results[i]?)
    (List.replicate results.length none)

/-- Reading of the filled slot table in discovery-index order. -/
def collectSlots (slots : List (Option ChapterResult)) : List ChapterResult :=
  slots.filterMap id

theorem foldl_set_getElem (results : List ChapterResult) (schedule : List Nat)
    (init : List (Option ChapterResult)) (j : Nat) :
    (schedule.foldl (fun slots i => slots.set i results[i]?) init)[j]? =
      if j ∈ schedule ∧ j < init.length then some (results[j]?) else init[j]? := by
  induction schedule generalizing init with
  | nil => simp
  | cons i is ih =>
    rw [List.foldl_cons, ih]
    by_cases hmem : j ∈ is ∧ j < (init.set i results[i]?).length
    · rw [if_pos hmem]
      have hc : j ∈ i :: is ∧ j < init.length := by
        simp only [List.length_set] at hmem
        exact ⟨List.mem_cons_of_mem i hmem.1, hmem.2⟩
      rw [if_pos hc]
    · rw [if_neg hmem]
      rw [List.getElem?_set]
      simp only [List.length_set] at hmem
      by_cases hij : i = j
      · subst hij
        by_cases hlen : i < init.length
        · rw [if_pos rfl, if_pos hlen,
            if_pos ⟨List.mem_cons_self i is, hlen⟩]
        · rw [if_pos rfl, if_neg hlen,
            if_neg (fun h => hlen h.2)]
          exact (List.getElem?_eq_none (Nat.le_of_not_lt hlen)).symm
      · rw [if_neg hij]
        have h2 : ¬ (j ∈ i :: is ∧ j < init.length) := by
          intro h
          rcases List.mem_cons.mp h.1 with h1 | h1
          · exact hij h1.symm
          · exact hmem ⟨h1, h.2⟩
        rw [if_neg h2]

theorem runPoolSchedule_eq_map_some (results : List ChapterResult) (schedule : List Nat)
    (hsched : List.Perm schedule (List.range results.length)) :
    runPoolSchedule results schedule = results.map some := by
  apply List.ext_getElem?
  intro j
  rw [runPoolSchedule, foldl_set_getElem]
  simp only [List.length_replicate]
  by_cases hj : j < results.length
  · rw [if_pos ⟨hsched.mem_iff.mpr (List.mem_range.mpr hj), hj⟩]
    have hr : results[j]? = some results[j] := List.getElem?_eq_getElem hj
    rw [List.getElem?_map, hr]
    rfl
  · rw [if_neg (fun h => hj h.2), List.getElem?_replicate, if_neg hj]
    have hn : (results.map some)[j]? = none :=
      List.getElem?_eq_none (by simpa using Nat.le_of_not_lt hj)
    rw [hn]

/-- C7: completion order never influences the assembled output: under
any two completion schedules that each complete every submitted task
exactly once, the final slot tables coincide, the collection read in
discovery-index order is exactly the per-task results in discovery
order, and hence the assembled manifest is identical across the two
runs; completion timing never reaches the manifest. -/
theorem c7_completion_order_independent (results : List ChapterResult)
    (schedule1 schedule2 : List Nat)
    (h1 : List.Perm schedule1 (List.range results.length))
    (h2 : List.Perm schedule2 (List.range results.length)) :
    runPoolSchedule results schedule1 = runPoolSchedule results schedule2 ∧
    collectSlots (runPoolSchedule results schedule1) = results ∧
    (create_epub (collectSlots (runPoolSchedule results schedule1))).manifestChapters =
      (create_epub results).manifestChapters := by
  have e1 := runPoolSchedule_eq_map_some results schedule1 h1
  have e2 := runPoolSchedule_eq_map_some results schedule2 h2
  have hcol : collectSlots (results.map some) = results := by
    simp [collectSlots, List.filterMap_map, Function.comp]
  exact ⟨by rw [e1, e2], by rw [e1, hcol], by rw [e1, hcol]⟩

/-- Concrete task results for chapters 1, 2 and 3 in discovery order. -/
def demoResults : List ChapterResult :=
  [ { chapter_url := "/c1", chapter_number := 1, chapter_title := "Chapter 1",
      chapter_content := "one", success := true },
    { chapter_url := "/c2", chapter_number := 2, chapter_title := "Chapter 2",
      chapter_content := "two", success := true },
    { chapter_url := "/c3", chapter_number := 3, chapter_title := "Chapter 3",
      chapter_content := "three", success := true } ]

/-- C7 witness: a run whose workers complete in reverse order 3, 2, 1
produces the same slots, collection and manifest as an in-order run on
chapters 1, 2, 3. -/
theorem c7_witness :
    runPoolSchedule demoResults [2, 1, 0] = runPoolSchedule demoResults [0, 1, 2] ∧
    collectSlots (runPoolSchedule demoResults [2, 1, 0]) = demoResults ∧
    (create_epub (collectSlots (runPoolSchedule demoResults [2, 1, 0]))).manifestChapters =
      (create_epub demoResults).manifestChapters :=
  c7_completion_order_independent demoResults [2, 1, 0] [0, 1, 2] (by decide) (by decide)
